import Mathlib

/-!
Verification development for the clang-based semantic-analysis core
(`core/services/parser/clang_parser.py`).

The Python source is shallowly embedded: file paths are lists of
characters, the translation-unit store (`self.tunits`) is an association
list, the external libclang front end is represented by the data it
hands back (cursors, tokens, declarations, parse results), and each
fallible Python operation returns `Except`/`Option` instead of raising.
-/

/-- Paths and file names are modelled as lists of characters so that the
prefix/suffix arithmetic of `save_to_disk`/`load_from_disk` can be
reasoned about structurally. -/
abbrev FsPath := List Char

/-- The clang `SourceLocation` value: file identity (absent for
locations not associated with any file), line, column and byte offset.
`clang_equalLocations` identifies two locations exactly when all four
components agree, which is how equality is embedded. -/
structure SourceLocation where
  file : Option FsPath
  line : Nat
  column : Nat
  offset : Nat
deriving DecidableEq, Repr

/-- A clang source extent: the start and stop locations of a construct. -/
structure Extent where
  start : SourceLocation
  stop : SourceLocation
deriving DecidableEq, Repr

/-- The declaration a cursor can point at through `cursor.referenced`.
Only the attributes the source reads are kept: `kind`, `spelling`,
`get_usr()` and the kinds of the unresolved-overload candidates
(`clang_getNumOverloadedDecls` is the length of `overloadKinds`, and
`clang_getOverloadedDecl(c, i).kind` is its `i`-th element). -/
structure Decl where
  kind : Nat
  spelling : String
  usr : String
  overloadKinds : List Nat
deriving DecidableEq, Repr

/-- A token produced by tokenizing a cursor's extent.  `cursorKind` and
`cursorExtent` are the kind and extent of the AST node the token is
associated with (`token.cursor.kind`, `token.cursor.extent`). -/
structure Token where
  kind : Nat
  spelling : String
  location : SourceLocation
  extent : Extent
  cursorKind : Nat
  cursorExtent : Extent
deriving DecidableEq, Repr

/-! Integer identifiers of the libclang cursor kinds the source names
(the Python `clang.cindex.CursorKind` constants). -/

namespace CursorKind

def STRUCT_DECL : Nat := 2

def UNION_DECL : Nat := 3

def CLASS_DECL : Nat := 4

def ENUM_DECL : Nat := 5

def FIELD_DECL : Nat := 6

def ENUM_CONSTANT_DECL : Nat := 7

def FUNCTION_DECL : Nat := 8

def VAR_DECL : Nat := 9

def PARM_DECL : Nat := 10

def TYPEDEF_DECL : Nat := 20

def CXX_METHOD : Nat := 21

def NAMESPACE : Nat := 22

def CONSTRUCTOR : Nat := 24

def DESTRUCTOR : Nat := 25

def TEMPLATE_TYPE_PARAMETER : Nat := 27

def TEMPLATE_NON_TYPE_PARAMETER : Nat := 28

def TEMPLATE_TEMPLATE_PARAMETER : Nat := 29

def FUNCTION_TEMPLATE : Nat := 30

def CLASS_TEMPLATE : Nat := 31

def CLASS_TEMPLATE_PARTIAL_SPECIALIZATION : Nat := 32

def NAMESPACE_ALIAS : Nat := 33

def USING_DIRECTIVE : Nat := 34

def USING_DECLARATION : Nat := 35

def TYPE_ALIAS_DECL : Nat := 36

def OVERLOADED_DECL_REF : Nat := 49

def MEMBER_REF_EXPR : Nat := 102

def CALL_EXPR : Nat := 103

def MACRO_DEFINITION : Nat := 501

def MACRO_INSTANTIATION : Nat := 502

end CursorKind

/-! Integer identifiers of the libclang type kinds the source names. -/

namespace TypeKind

def DEPENDENT : Nat := 26

end TypeKind

/-! Integer identifiers of the libclang token kinds the source names. -/

namespace TokenKind

def IDENTIFIER : Nat := 2

end TokenKind

/-- One AST node as the source observes it: native kind, spelling, type
kind, location, extent, unique symbol signature (`get_usr()`), optional
referenced declaration, the overload-candidate kinds when the node is an
unresolved overload set, the token stream over its extent, the state of
the dynamic `ast_parent` attribute, and the child nodes enumerated by
the front end's child-visit primitive.  `astParentKind` is `some k`
when some traversal attached an AST parent of kind `k` to the node
(`child.ast_parent = parent` in `traverse`; the attached parent is a
cursor object and hence always truthy), and `none` when the attribute
was never attached — in the source a read of `cursor.ast_parent` then
raises `AttributeError` instead of yielding a value. -/
inductive Cursor where
  | node
      (kind : Nat) (spelling : String) (typeKind : Nat)
      (location : SourceLocation) (extent : Extent) (usr : String)
      (referenced : Option Decl) (overloadKinds : List Nat)
      (tokens : List Token) (astParentKind : Option Nat)
      (children : List Cursor)

def Cursor.kind : Cursor → Nat
  | .node k _ _ _ _ _ _ _ _ _ _ => k

def Cursor.spelling : Cursor → String
  | .node _ s _ _ _ _ _ _ _ _ _ => s

def Cursor.typeKind : Cursor → Nat
  | .node _ _ t _ _ _ _ _ _ _ _ => t

def Cursor.location : Cursor → SourceLocation
  | .node _ _ _ l _ _ _ _ _ _ _ => l

def Cursor.extent : Cursor → Extent
  | .node _ _ _ _ e _ _ _ _ _ _ => e

def Cursor.usr : Cursor → String
  | .node _ _ _ _ _ u _ _ _ _ _ => u

def Cursor.referenced : Cursor → Option Decl
  | .node _ _ _ _ _ _ r _ _ _ _ => r

def Cursor.overloadKinds : Cursor → List Nat
  | .node _ _ _ _ _ _ _ o _ _ _ => o

def Cursor.tokens : Cursor → List Token
  | .node _ _ _ _ _ _ _ _ ts _ _ => ts

/-- The state of the dynamic `ast_parent` attribute: the attached
parent's kind, or `none` when no traversal ever attached it (reading it
then raises, see `ClangParser.extract_dependent_type_kind`). -/
def Cursor.astParentKind : Cursor → Option Nat
  | .node _ _ _ _ _ _ _ _ _ p _ => p

def Cursor.children : Cursor → List Cursor
  | .node _ _ _ _ _ _ _ _ _ _ cs => cs

mutual

/-- All nodes of a cursor's subtree in preorder: the node itself
followed by the subtrees of its children, which is the order in which
`clang_visitChildren` reaches them under a visitor that always returns
`ChildVisitResult.RECURSE`. -/
def Cursor.subtreeNodes : Cursor → List Cursor
  | .node k sp ty loc ext usr refd ov toks ap cs =>
      .node k sp ty loc ext usr refd ov toks ap cs :: subtreeNodesOfList cs

/-- Preorder subtree nodes of each cursor in a list, concatenated. -/
def subtreeNodesOfList : List Cursor → List Cursor
  | [] => []
  | c :: cs => Cursor.subtreeNodes c ++ subtreeNodesOfList cs

end

/-- The nodes passed to a visitor when traversing from a root cursor:
`clang_visitChildren` visits the root's children recursively but never
the root itself. -/
def visitedNodes (root : Cursor) : List Cursor :=
  subtreeNodesOfList root.children

example :
    visitedNodes
      (.node 8 "f" 0 ⟨none, 1, 1, 0⟩ ⟨⟨none, 1, 1, 0⟩, ⟨none, 1, 1, 0⟩⟩ "u"
        none [] [] none []) = [] := rfl

/-- A parsed translation unit as the store keeps it.  Only the root
cursor is observed by the operations under verification. -/
structure TranslationUnit where
  cursor : Cursor

/-- The translation-unit store `self.tunits`: a Python dict from the
original file name to its translation unit, embedded as an association
list whose update semantics follow dict assignment. -/
abbrev Store := List (FsPath × TranslationUnit)

/-- Python dict assignment `d[k] = v`: replace the binding of `k` when
one exists, otherwise add a new binding. -/
def dictInsert (d : Store) (k : FsPath) (v : TranslationUnit) : Store :=
  match d with
  | [] => [(k, v)]
  | p :: rest => if p.1 = k then (k, v) :: rest else p :: dictInsert rest k v

namespace ClangParser

/-- Embedding of `ClangParser.run` (lines 120-137).  The outcome of the
external `self.index.parse(...)` call is passed in as `parseResult`; on
success the dict entry for `original_filename` is assigned, and the bare
`except:` clause turns a parse exception into a log line, leaving the
store untouched.  The function is total: no exception escapes. -/
def run (tunits : Store) (original_filename : FsPath)
    (parseResult : Except String TranslationUnit) : Store :=
  match parseResult with
  | .ok tu => dictInsert tunits original_filename tu
  | .error _ => tunits

/-- Embedding of `ClangParser.get_translation_unit` (lines 139-140):
`self.tunits.get(filename, None)`. -/
def get_translation_unit (tunits : Store) (filename : FsPath) :
    Option TranslationUnit :=
  (tunits.find? (fun p => decide (p.1 = filename))).map (fun p => p.2)

/-- Embedding of `ClangParser.drop_translation_unit` (lines 333-335). -/
def drop_translation_unit (tunits : Store) (filename : FsPath) : Store :=
  tunits.filter (fun p => decide (p.1 ≠ filename))

end ClangParser

/-- The hashable wrapper `ImmutableSourceLocation` around a clang
source location (lines 62-105). -/
structure ImmutableSourceLocation where
  source_location : SourceLocation
deriving DecidableEq, Repr

/-- The `file` property of `ImmutableSourceLocation`. -/
def ImmutableSourceLocation.file (l : ImmutableSourceLocation) :
    Option FsPath :=
  l.source_location.file

/-- The `line` property of `ImmutableSourceLocation`. -/
def ImmutableSourceLocation.line (l : ImmutableSourceLocation) : Nat :=
  l.source_location.line

/-- The `column` property of `ImmutableSourceLocation`. -/
def ImmutableSourceLocation.column (l : ImmutableSourceLocation) : Nat :=
  l.source_location.column

/-- The `offset` property of `ImmutableSourceLocation`. -/
def ImmutableSourceLocation.offset (l : ImmutableSourceLocation) : Nat :=
  l.source_location.offset

/-- Equality of the wrapped clang source locations:
`ImmutableSourceLocation.__eq__` delegates to
`clang.cindex.SourceLocation.__eq__`, i.e. `clang_equalLocations`, which
identifies two locations exactly when file, line, column and offset all
agree. -/
def isl_eq (a b : ImmutableSourceLocation) : Bool :=
  decide (a.source_location = b.source_location)

/-- The hash of a Python integer: `hash(n) = n mod (2^61 - 1)` for the
non-negative machine-independent case. -/
def pyIntHash (n : Nat) : Nat :=
  n % (2 ^ 61 - 1)

/-- Embedding of `ImmutableSourceLocation.__hash__`:
`hash(file.name) ^ hash(line) ^ hash(column) ^ hash(offset)`.  The
Python string hash is process-seeded and opaque, so it is taken as a
parameter `hs`; when the wrapped location has no file, `file.name`
raises `AttributeError`, modelled by `none`. -/
def isl_hash (hs : FsPath → Nat) (l : ImmutableSourceLocation) :
    Option Nat :=
  match l.source_location.file with
  | none => none
  | some f =>
      some (Nat.xor (Nat.xor (Nat.xor (hs f) (pyIntHash l.line))
        (pyIntHash l.column)) (pyIntHash l.offset))

/-- The `node = ast_node.referenced if ast_node.referenced else ast_node`
redirection applied to spellings: the spelling of the node's effective
target. -/
def effectiveSpelling (c : Cursor) : String :=
  match c.referenced with
  | some d => d.spelling
  | none => c.spelling

/-- The same redirection applied to unique symbol signatures
(`get_usr()`). -/
def effectiveUsr (c : Cursor) : String :=
  match c.referenced with
  | some d => d.usr
  | none => c.usr

/-- Python `set.add` on the reference set, embedded over a duplicate-free
list: adding an element already present leaves the set unchanged. -/
def setAdd (refs : List ImmutableSourceLocation)
    (l : ImmutableSourceLocation) : List ImmutableSourceLocation :=
  if l ∈ refs then refs else refs ++ [l]

/-- The token-confirmation loop of the `find_all_references` visitor
(lines 272-276): scan the node's tokens for the first one whose extent
start equals the node's location; that token decides — the occurrence is
confirmed exactly when its spelling equals the effective target's
spelling, and the loop breaks either way. -/
def tokenConfirm (loc : SourceLocation) (sp : String) :
    List Token → Bool
  | [] => false
  | t :: ts =>
      if t.extent.start = loc then decide (sp = t.spelling)
      else tokenConfirm loc sp ts

/-- The per-node body of the `find_all_references` visitor (lines
245-277).  `key` is the value the closure variable `filename` holds
while this node is visited — the key of the translation unit currently
being traversed, because the `for filename, tunit in
self.tunits.iteritems()` loop rebinds the closure's `filename`.  Returns
the location the node contributes, when confirmed. -/
def farContrib (key : FsPath) (targetSpelling targetUsr : String)
    (c : Cursor) : Option ImmutableSourceLocation :=
  match c.location.file with
  | none => none
  | some f =>
      if f = key then
        if effectiveSpelling c = targetSpelling then
          if effectiveUsr c = targetUsr then
            if tokenConfirm c.location (effectiveSpelling c) c.tokens then
              some ⟨c.location⟩
            else none
          else none
        else none
      else none

/-- One visitor step: add the node's confirmed location, if any, to the
reference set. -/
def farStep (key : FsPath) (targetSpelling targetUsr : String)
    (refs : List ImmutableSourceLocation) (c : Cursor) :
    List ImmutableSourceLocation :=
  match farContrib key targetSpelling targetUsr c with
  | some l => setAdd refs l
  | none => refs

namespace ClangParser

/-- Embedding of `ClangParser.find_all_references` (lines 234-300).
`fromLocation` stands for the external
`clang.cindex.Cursor.from_location(...)` lookup resolving `(line,
column)` inside a translation unit to a cursor.  When `filename` has no
entry the function returns the empty result; otherwise the search
target is the resolved cursor's referenced declaration when present,
else the cursor itself, and every loaded translation unit is traversed
with the visitor, whose `filename` closure variable is rebound to the
currently traversed unit's key by the iteration. -/
def find_all_references (tunits : Store)
    (fromLocation : TranslationUnit → Nat → Nat → Cursor)
    (filename : FsPath) (line column : Nat) :
    List ImmutableSourceLocation :=
  match tunits.find? (fun p => decide (p.1 = filename)) with
  | none => []
  | some kt =>
      tunits.foldl
        (fun refs p =>
          (visitedNodes p.2.cursor).foldl
            (farStep p.1
              (effectiveSpelling (fromLocation kt.2 line column))
              (effectiveUsr (fromLocation kt.2 line column))) refs)
        []

end ClangParser

/-- `os.path.join(a, b)` for two components: `b` wins when absolute,
otherwise the parts are joined with a single separator. -/
def osJoin (a b : FsPath) : FsPath :=
  if b.head? = some '/' then b
  else if a = [] ∨ a.getLast? = some '/' then a ++ b
  else a ++ '/' :: b

/-- The path `save_to_disk` serializes a translation unit to (line 310):
`os.path.join(root_dir, filename[1:len(filename)] + '.ast')`. -/
def save_path (root : FsPath) (filename : FsPath) : FsPath :=
  osJoin root (filename.drop 1) ++ [ '.', 'a', 's', 't' ]

namespace ClangParser

/-- Embedding of the file-writing effect of `ClangParser.save_to_disk`
(lines 302-314) on its success path: the list of `(path, unit)`
artifacts written, one per stored translation unit, in store order.
Directory creation has no observable effect on the artifact set and is
not modelled. -/
def save_to_disk (root : FsPath) (tunits : Store) :
    List (FsPath × TranslationUnit) :=
  tunits.map (fun p => (save_path root p.1, p.2))

end ClangParser

/-- The basename of a path: the part after the last separator, which is
what `os.walk` yields in its `files` component. -/
def basename (p : FsPath) : FsPath :=
  (p.reverse.takeWhile (fun c => decide (c ≠ '/'))).reverse

/-- The extension component of `os.path.splitext` on a basename: the
suffix from the last dot on, provided some character strictly before
that dot is not itself a dot (leading dots never start an extension). -/
def splitextExt (name : FsPath) : FsPath :=
  if name.reverse.dropWhile (fun c => decide (c ≠ '.')) = [] then []
  else if ((name.reverse.dropWhile (fun c => decide (c ≠ '.'))).drop 1).any
      (fun c => decide (c ≠ '.')) then
    '.' :: (name.reverse.takeWhile (fun c => decide (c ≠ '.'))).reverse
  else []

/-- The key `load_from_disk` recovers from a discovered artifact path
(line 324): `parsing_result_filename[len(root_dir):-len('.ast')]`. -/
def stripKey (root : FsPath) (p : FsPath) : FsPath :=
  (p.drop root.length).take ((p.drop root.length).length - 4)

/-- A path lies in the directory tree `os.walk(root_dir)` enumerates. -/
def underDir (root : FsPath) (p : FsPath) : Bool :=
  decide (p.take (root.length + 1) = root ++ [ '/' ])

/-- The walk-and-read loop of `load_from_disk` (lines 319-326) over the
file system, embedded as a list of `(path, read outcome)` pairs in walk
order; `Except.error` is an `index.read` failure.  Paths outside the
walked tree or without the `.ast` extension are skipped; the first read
failure aborts the loop with the entries accumulated so far and the
failure indicator. -/
def load_aux (root : FsPath) (tunits : Store) :
    List (FsPath × Except String TranslationUnit) → Store × Bool
  | [] => (tunits, true)
  | (p, content) :: rest =>
      if underDir root p then
        if splitextExt (basename p) = [ '.', 'a', 's', 't' ] then
          match content with
          | .ok tu => load_aux root (dictInsert tunits (stripKey root p) tu) rest
          | .error _ => (tunits, false)
        else load_aux root tunits rest
      else load_aux root tunits rest

namespace ClangParser

/-- Embedding of `ClangParser.load_from_disk` (lines 316-331).  The
first statement inside the `try` block is `self.tunits.clear()`, so the
walk starts from an empty store whatever `tunits` held; the bare
`except:` clause converts a mid-walk failure into the return value
`False`, leaving whatever was repopulated so far. -/
def load_from_disk (root : FsPath) (tunits : Store)
    (files : List (FsPath × Except String TranslationUnit)) :
    Store × Bool :=
  load_aux root [] files

end ClangParser

/-- The keys currently bound in a store. -/
def keysOf (tunits : Store) : List FsPath :=
  tunits.map (fun p => p.1)

/-- Successful read outcomes for a list of written artifacts, as a fresh
`load_from_disk` walk would find them. -/
def asOkFiles (files : List (FsPath × TranslationUnit)) :
    List (FsPath × Except String TranslationUnit) :=
  files.map (fun p => (p.1, Except.ok p.2))

/-- Modelled from the spec: the closed enumeration `SemanticNodeId`
(the `ASTNodeId` values of `services.parser.ast_node_identifier`, a
module that is not part of the sources under verification). -/
inductive ASTNodeId where
  | Namespace
  | Class
  | Struct
  | Enum
  | EnumValue
  | Union
  | Field
  | LocalVariable
  | Function
  | Method
  | FunctionParameter
  | TemplateTypeParameter
  | TemplateNonTypeParameter
  | TemplateTemplateParameter
  | MacroDefinition
  | MacroInstantiation
  | Typedef
  | NamespaceAlias
  | UsingDirective
  | UsingDeclaration
  | Unsupported
deriving DecidableEq, Repr

namespace ClangParser

/-- Embedding of `ClangParser.to_ast_node_id` (lines 463-505): the
fixed kind-to-semantic-id table, falling through to `Unsupported`. -/
def to_ast_node_id (kind : Nat) : ASTNodeId :=
  if kind = CursorKind.NAMESPACE then .Namespace
  else if kind ∈ [CursorKind.CLASS_DECL, CursorKind.CLASS_TEMPLATE,
      CursorKind.CLASS_TEMPLATE_PARTIAL_SPECIALIZATION] then .Class
  else if kind = CursorKind.STRUCT_DECL then .Struct
  else if kind = CursorKind.ENUM_DECL then .Enum
  else if kind = CursorKind.ENUM_CONSTANT_DECL then .EnumValue
  else if kind = CursorKind.UNION_DECL then .Union
  else if kind = CursorKind.FIELD_DECL then .Field
  else if kind = CursorKind.VAR_DECL then .LocalVariable
  else if kind ∈ [CursorKind.FUNCTION_DECL, CursorKind.FUNCTION_TEMPLATE]
    then .Function
  else if kind ∈ [CursorKind.CXX_METHOD, CursorKind.CONSTRUCTOR,
      CursorKind.DESTRUCTOR] then .Method
  else if kind = CursorKind.PARM_DECL then .FunctionParameter
  else if kind = CursorKind.TEMPLATE_TYPE_PARAMETER then
    .TemplateTypeParameter
  else if kind = CursorKind.TEMPLATE_NON_TYPE_PARAMETER then
    .TemplateNonTypeParameter
  else if kind = CursorKind.TEMPLATE_TEMPLATE_PARAMETER then
    .TemplateTemplateParameter
  else if kind = CursorKind.MACRO_DEFINITION then .MacroDefinition
  else if kind = CursorKind.MACRO_INSTANTIATION then .MacroInstantiation
  else if kind ∈ [CursorKind.TYPEDEF_DECL, CursorKind.TYPE_ALIAS_DECL]
    then .Typedef
  else if kind = CursorKind.NAMESPACE_ALIAS then .NamespaceAlias
  else if kind = CursorKind.USING_DIRECTIVE then .UsingDirective
  else if kind = CursorKind.USING_DECLARATION then .UsingDeclaration
  else .Unsupported

end ClangParser

/-- The native kinds that appear in the fixed table of
`to_ast_node_id`; every other kind falls through to `Unsupported`. -/
def mappedKinds : List Nat :=
  [22, 4, 31, 32, 2, 5, 7, 3, 6, 9, 8, 30, 21, 24, 25, 10, 27, 28, 29,
   501, 502, 20, 36, 33, 34, 35]

/-- The token test of the dependent-construct scan (lines 433, 437, 448,
459): an identifier token whose associated AST node is a member-access
expression with extent exactly equal to the original cursor's extent. -/
def qualifyingToken (c : Cursor) (t : Token) : Bool :=
  decide (t.kind = TokenKind.IDENTIFIER) &&
    decide (t.cursorKind = CursorKind.MEMBER_REF_EXPR) &&
      decide (t.cursorExtent = c.extent)

namespace ClangParser

/-- Embedding of `ClangParser.__extract_dependent_type_kind` (lines
416-439).  The leading `assert` raises when the cursor's type is not the
dependent marker, modelled by `Except.error`.  For a member-access
cursor, line 431 reads `cursor.ast_parent` before any token is scanned:
when no traversal ever attached that attribute the read raises
`AttributeError` (modelled by `Except.error`); when a parent is
attached it is a cursor object and therefore truthy, so the guard
reduces to the call-expression test, and the token scan returns method
or data-field kind accordingly.  Every other path returns the cursor's
native kind. -/
def extract_dependent_type_kind (c : Cursor) : Except String Nat :=
  if c.typeKind ≠ TypeKind.DEPENDENT then .error ("AssertionError")
  else if c.kind = CursorKind.MEMBER_REF_EXPR then
    match c.astParentKind with
    | none => .error ("AttributeError")
    | some pk =>
        if pk = CursorKind.CALL_EXPR then
          match c.tokens.find? (qualifyingToken c) with
          | some _ => .ok CursorKind.CXX_METHOD
          | none => .ok c.kind
        else
          match c.tokens.find? (qualifyingToken c) with
          | some _ => .ok CursorKind.FIELD_DECL
          | none => .ok c.kind
  else .ok c.kind

/-- Embedding of `ClangParser.__extract_dependent_type_spelling` (lines
441-450): the matched token's spelling, or the cursor's own spelling
when no token qualifies. -/
def extract_dependent_type_spelling (c : Cursor) : Except String String :=
  if c.typeKind ≠ TypeKind.DEPENDENT then .error ("AssertionError")
  else if c.kind = CursorKind.MEMBER_REF_EXPR then
    match c.tokens.find? (qualifyingToken c) with
    | some t => .ok t.spelling
    | none => .ok c.spelling
  else .ok c.spelling

/-- Embedding of `ClangParser.__extract_dependent_type_location` (lines
452-461): the matched token's location, or the cursor's own location
when no token qualifies. -/
def extract_dependent_type_location (c : Cursor) :
    Except String SourceLocation :=
  if c.typeKind ≠ TypeKind.DEPENDENT then .error ("AssertionError")
  else if c.kind = CursorKind.MEMBER_REF_EXPR then
    match c.tokens.find? (qualifyingToken c) with
    | some t => .ok t.location
    | none => .ok c.location
  else .ok c.location

/-- Embedding of `ClangParser.get_ast_node_id` (lines 151-181): the
dependent path delegates to the dependent-construct resolver, the
referenced path redirects through the referenced declaration (using the
first overload candidate when the declaration is an unresolved overload
set with at least one candidate), the overload-set path does the same on
the cursor itself, and the direct path classifies the cursor's own
kind. -/
def get_ast_node_id (c : Cursor) : Except String ASTNodeId :=
  if c.typeKind = TypeKind.DEPENDENT then
    (extract_dependent_type_kind c).map to_ast_node_id
  else
    match c.referenced with
    | some d =>
        if d.kind = CursorKind.OVERLOADED_DECL_REF ∧
            d.overloadKinds.length ≠ 0 then
          .ok (to_ast_node_id (d.overloadKinds.getD 0 0))
        else .ok (to_ast_node_id d.kind)
    | none =>
        if c.kind = CursorKind.OVERLOADED_DECL_REF ∧
            c.overloadKinds.length ≠ 0 then
          .ok (to_ast_node_id (c.overloadKinds.getD 0 0))
        else .ok (to_ast_node_id c.kind)

end ClangParser

/-- A sample source location used by concrete witnesses. -/
def sampleLoc : SourceLocation := ⟨some [ 'a' ], 1, 2, 3⟩

/-- A sample extent used by concrete witnesses. -/
def sampleExtent : Extent := ⟨sampleLoc, sampleLoc⟩

/-- A sample cursor used by concrete witnesses. -/
def sampleCursor : Cursor :=
  .node 8 "f" 0 sampleLoc sampleExtent "u" none [] [] none []

/-- A sample translation unit used by concrete witnesses. -/
def sampleTU : TranslationUnit := ⟨sampleCursor⟩

/-- Looking a key up right after dict assignment yields the assigned
value. -/
theorem get_translation_unit_dictInsert (d : Store) (k : FsPath)
    (v : TranslationUnit) :
    ClangParser.get_translation_unit (dictInsert d k v) k = some v := by
  induction d with
  | nil => simp [dictInsert, ClangParser.get_translation_unit]
  | cons p rest ih =>
      by_cases h : p.1 = k
      · simp [dictInsert, h, ClangParser.get_translation_unit]
      · simp only [dictInsert, if_neg h]
        unfold ClangParser.get_translation_unit at ih ⊢
        rw [List.find?_cons, decide_eq_false h]
        exact ih

/-- Claim C6: for all wrapped source locations, equality holds exactly
when file identity, line, column and byte offset all agree, and equal
locations have equal hashes (for every choice of the opaque string
hash), making the type usable as a set or map key. -/
theorem isl_eq_iff_fields_and_hash_agrees (hs : FsPath → Nat)
    (a b : ImmutableSourceLocation) :
    (isl_eq a b = true ↔
      (a.file = b.file ∧ a.line = b.line ∧ a.column = b.column ∧
        a.offset = b.offset)) ∧
    (isl_eq a b = true → isl_hash hs a = isl_hash hs b) := by
  obtain ⟨⟨af, al, ac, ao⟩⟩ := a
  obtain ⟨⟨bf, bl, bc, bo⟩⟩ := b
  constructor
  · simp [isl_eq, ImmutableSourceLocation.file, ImmutableSourceLocation.line,
      ImmutableSourceLocation.column, ImmutableSourceLocation.offset,
      SourceLocation.mk.injEq]
  · intro h
    simp only [isl_eq, decide_eq_true_eq, SourceLocation.mk.injEq] at h
    obtain ⟨h1, h2, h3, h4⟩ := h
    simp [isl_hash, ImmutableSourceLocation.line, ImmutableSourceLocation.column,
      ImmutableSourceLocation.offset, h1, h2, h3, h4]

/-- Witness for C6 at a concrete location and string hash. -/
theorem isl_hash_agrees_witness :
    isl_hash (fun _ => 0) ⟨sampleLoc⟩ = isl_hash (fun _ => 0) ⟨sampleLoc⟩ :=
  (isl_eq_iff_fields_and_hash_agrees (fun _ => 0) ⟨sampleLoc⟩ ⟨sampleLoc⟩).2
    (by decide)

/-- Claim C2: a failing parse leaves the store entry for the key exactly
as it was (and, the function being total, the exception never reaches
the caller), while a successful parse replaces the entry with the new
translation unit. -/
theorem run_failure_preserves_success_replaces (tunits : Store)
    (k : FsPath) (res : Except String TranslationUnit) :
    (∀ e, res = .error e →
      ClangParser.get_translation_unit (ClangParser.run tunits k res) k =
        ClangParser.get_translation_unit tunits k) ∧
    (∀ tu, res = .ok tu →
      ClangParser.get_translation_unit (ClangParser.run tunits k res) k =
        some tu) := by
  constructor
  · intro e he
    subst he
    rfl
  · intro tu htu
    subst htu
    exact get_translation_unit_dictInsert tunits k tu

/-- Witness for C2 at a concrete failing parse over the empty store. -/
theorem run_failure_witness :
    ClangParser.get_translation_unit
        (ClangParser.run [] [ 'a' ] (Except.error ("E"))) [ 'a' ] =
      ClangParser.get_translation_unit [] [ 'a' ] :=
  (run_failure_preserves_success_replaces [] [ 'a' ]
    (Except.error ("E"))).1 ("E") rfl

/-- Claim C5: a reference query on a file with no loaded translation
unit returns the empty result, and the function is total, so it never
raises. -/
theorem find_all_references_unknown_file_empty (tunits : Store)
    (fromLocation : TranslationUnit → Nat → Nat → Cursor)
    (filename : FsPath) (line column : Nat)
    (h : ClangParser.get_translation_unit tunits filename = none) :
    ClangParser.find_all_references tunits fromLocation filename line
      column = [] := by
  unfold ClangParser.find_all_references
  unfold ClangParser.get_translation_unit at h
  cases hf : tunits.find? (fun p => decide (p.1 = filename)) with
  | none => simp
  | some p => rw [hf] at h; simp at h

/-- Witness for C5 on the empty store. -/
theorem find_all_references_unknown_witness :
    ClangParser.find_all_references [] (fun _ _ _ => sampleCursor)
      [ 'a' ] 1 1 = [] :=
  find_all_references_unknown_file_empty [] (fun _ _ _ => sampleCursor)
    [ 'a' ] 1 1 rfl

/-- Claim C3 as amended: classification never raises on any cursor
whose dependent member-access path can read an attached AST parent — in
particular on every cursor a traversal produced — and every native kind
absent from the fixed table classifies to `Unsupported`.  On a
dependent member-access cursor whose `ast_parent` attribute was never
attached, classification instead raises `AttributeError` (see the
counterexample below). -/
theorem get_ast_node_id_total_and_unmapped :
    (∀ c : Cursor,
      (c.typeKind = TypeKind.DEPENDENT →
        c.kind = CursorKind.MEMBER_REF_EXPR → c.astParentKind ≠ none) →
      ∃ i, ClangParser.get_ast_node_id c = Except.ok i) ∧
    (∀ k, k ∉ mappedKinds →
      ClangParser.to_ast_node_id k = ASTNodeId.Unsupported) := by
  constructor
  · intro c hctx
    unfold ClangParser.get_ast_node_id
    by_cases hdep : c.typeKind = TypeKind.DEPENDENT
    · rw [if_pos hdep]
      have hex : ∃ k0, ClangParser.extract_dependent_type_kind c =
          Except.ok k0 := by
        unfold ClangParser.extract_dependent_type_kind
        rw [if_neg (by simp [hdep])]
        by_cases hm : c.kind = CursorKind.MEMBER_REF_EXPR
        · rw [if_pos hm]
          cases hap : c.astParentKind with
          | none => exact absurd hap (hctx hdep hm)
          | some pk =>
              simp only [hap]
              split
              · split <;> exact ⟨_, rfl⟩
              · split <;> exact ⟨_, rfl⟩
        · rw [if_neg hm]
          exact ⟨_, rfl⟩
      obtain ⟨k0, hk0⟩ := hex
      exact ⟨ClangParser.to_ast_node_id k0, by rw [hk0]; rfl⟩
    · rw [if_neg hdep]
      cases hr : c.referenced with
      | none => simp only [hr]; split <;> exact ⟨_, rfl⟩
      | some d => simp only [hr]; split <;> exact ⟨_, rfl⟩
  · intro k hk
    simp only [mappedKinds, List.mem_cons, List.not_mem_nil, or_false,
      not_or] at hk
    obtain ⟨h1, h2, h3, h4, h5, h6, h7, h8, h9, h10, h11, h12, h13, h14,
      h15, h16, h17, h18, h19, h20, h21, h22, h23, h24, h25, h26⟩ := hk
    simp [ClangParser.to_ast_node_id, CursorKind.NAMESPACE,
      CursorKind.CLASS_DECL, CursorKind.CLASS_TEMPLATE,
      CursorKind.CLASS_TEMPLATE_PARTIAL_SPECIALIZATION,
      CursorKind.STRUCT_DECL, CursorKind.ENUM_DECL,
      CursorKind.ENUM_CONSTANT_DECL, CursorKind.UNION_DECL,
      CursorKind.FIELD_DECL, CursorKind.VAR_DECL,
      CursorKind.FUNCTION_DECL, CursorKind.FUNCTION_TEMPLATE,
      CursorKind.CXX_METHOD, CursorKind.CONSTRUCTOR,
      CursorKind.DESTRUCTOR, CursorKind.PARM_DECL,
      CursorKind.TEMPLATE_TYPE_PARAMETER,
      CursorKind.TEMPLATE_NON_TYPE_PARAMETER,
      CursorKind.TEMPLATE_TEMPLATE_PARAMETER,
      CursorKind.MACRO_DEFINITION, CursorKind.MACRO_INSTANTIATION,
      CursorKind.TYPEDEF_DECL, CursorKind.TYPE_ALIAS_DECL,
      CursorKind.NAMESPACE_ALIAS, CursorKind.USING_DIRECTIVE,
      CursorKind.USING_DECLARATION, h1, h2, h3, h4, h5, h6, h7, h8, h9,
      h10, h11, h12, h13, h14, h15, h16, h17, h18, h19, h20, h21, h22,
      h23, h24, h25, h26]

/-- Witness for the amended C3: classification of a concrete
non-dependent cursor succeeds, and the unmapped native kind 0 yields
`Unsupported`. -/
theorem get_ast_node_id_classify_witness :
    (∃ i, ClangParser.get_ast_node_id sampleCursor = Except.ok i) ∧
    ClangParser.to_ast_node_id 0 = ASTNodeId.Unsupported :=
  ⟨get_ast_node_id_total_and_unmapped.1 sampleCursor (by decide),
   get_ast_node_id_total_and_unmapped.2 0 (by decide)⟩

/-- A sample dependent member-access location for witnesses. -/
def depLoc : SourceLocation := ⟨some [ 'm' ], 4, 5, 6⟩

/-- A sample dependent member-access extent for witnesses. -/
def depExtent : Extent := ⟨depLoc, ⟨some [ 'm' ], 4, 9, 10⟩⟩

/-- A qualifying token for the dependent member-access witness: an
identifier whose associated node is a member-access expression with the
cursor's exact extent. -/
def depToken : Token :=
  ⟨2, "bar", depLoc, depExtent, 102, depExtent⟩

/-- A dependent member-access cursor whose attached AST parent is a call
expression and whose token stream holds one qualifying token. -/
def depCursor : Cursor :=
  .node 102 "" 26 depLoc depExtent "" none [] [depToken] (some 103) []

/-- A dependent member-access cursor with no tokens and no attached
AST parent: reading its `ast_parent` raises. -/
def depCursorNoTok : Cursor :=
  .node 102 "sp" 26 depLoc depExtent "" none [] [] none []

/-- A dependent member-access cursor holding a qualifying token but no
attached AST parent: the parent read raises before any token is
scanned. -/
def depCursorTokNoParent : Cursor :=
  .node 102 "" 26 depLoc depExtent "" none [] [depToken] none []

/-- A dependent member-access cursor with an attached non-call parent
and no qualifying token. -/
def depCursorParentNoTok : Cursor :=
  .node 102 "sp" 26 depLoc depExtent "" none [] [] (some 0) []

/-- Counterexample to C3 as stated: on a dependent member-access cursor
whose `ast_parent` attribute was never attached (such as the cursors
`Cursor.from_location` returns), classification raises `AttributeError`
instead of returning a semantic id. -/
theorem get_ast_node_id_raises_without_parent :
    ClangParser.get_ast_node_id depCursorNoTok =
      Except.error ("AttributeError") := rfl

/-- Counterexample to C7 as stated: a dependent member-access cursor
holding a qualifying token but no attached AST parent makes kind
resolution raise `AttributeError` — it does not report a data field. -/
theorem extract_dependent_member_no_parent_raises :
    (∃ t ∈ depCursorTokNoParent.tokens,
      qualifyingToken depCursorTokNoParent t = true) ∧
    ClangParser.extract_dependent_type_kind depCursorTokNoParent =
      Except.error ("AttributeError") := ⟨by decide, rfl⟩

/-- Claim C7 as amended: on a dependent member-access cursor to which a
traversal attached an AST parent and whose token stream holds a
qualifying token, kind resolution reports a method exactly when the
attached parent is a call expression and a data field otherwise; with
no attached parent it raises instead (see the counterexample). -/
theorem extract_dependent_member_access_kind (c : Cursor)
    (hdep : c.typeKind = TypeKind.DEPENDENT)
    (hmem : c.kind = CursorKind.MEMBER_REF_EXPR)
    (pk : Nat) (hpar : c.astParentKind = some pk)
    (hqual : ∃ t ∈ c.tokens, qualifyingToken c t = true) :
    ClangParser.extract_dependent_type_kind c =
      .ok (if pk = CursorKind.CALL_EXPR
        then CursorKind.CXX_METHOD else CursorKind.FIELD_DECL) := by
  have hfind : ∃ t, c.tokens.find? (qualifyingToken c) = some t := by
    obtain ⟨t, ht, hq⟩ := hqual
    have : (c.tokens.find? (qualifyingToken c)).isSome := by
      rw [List.find?_isSome]
      exact ⟨t, ht, hq⟩
    exact Option.isSome_iff_exists.mp this
  obtain ⟨t, ht⟩ := hfind
  unfold ClangParser.extract_dependent_type_kind
  rw [if_neg (by simp [hdep]), if_pos hmem]
  simp only [hpar]
  by_cases hp : pk = CursorKind.CALL_EXPR
  · rw [if_pos hp, ht, if_pos hp]
  · rw [if_neg hp, ht, if_neg hp]

/-- Witness for the amended C7 at a concrete dependent member-access
cursor with an attached call-expression parent. -/
theorem extract_dependent_member_access_witness :
    ClangParser.extract_dependent_type_kind depCursor =
      .ok (if 103 = CursorKind.CALL_EXPR
        then CursorKind.CXX_METHOD else CursorKind.FIELD_DECL) :=
  extract_dependent_member_access_kind depCursor (by decide) (by decide)
    103 (by decide) ⟨depToken, by decide, by decide⟩

/-- Counterexample to C8 as stated: on a dependent member-access cursor
with no qualifying token and no attached AST parent, kind resolution
raises `AttributeError` at the parent read — before any token scan —
instead of returning the native kind without raising. -/
theorem extract_dependent_no_match_kind_raises :
    (∀ t ∈ depCursorNoTok.tokens,
      qualifyingToken depCursorNoTok t = false) ∧
    ClangParser.extract_dependent_type_kind depCursorNoTok =
      Except.error ("AttributeError") := ⟨by decide, rfl⟩

/-- Claim C8 as amended: on a cursor with the dependent type marker
whose token stream holds no qualifying token, and which — when it is a
member-access expression — carries a traversal-attached AST parent, all
three resolution functions return the cursor's unmodified native kind,
spelling and location without raising; spelling and location resolution
never read the parent and are unconditional. -/
theorem extract_dependent_no_match_native (c : Cursor)
    (hdep : c.typeKind = TypeKind.DEPENDENT)
    (hnone : ∀ t ∈ c.tokens, qualifyingToken c t = false)
    (hctx : c.kind = CursorKind.MEMBER_REF_EXPR →
      c.astParentKind ≠ none) :
    ClangParser.extract_dependent_type_kind c = .ok c.kind ∧
    ClangParser.extract_dependent_type_spelling c = .ok c.spelling ∧
    ClangParser.extract_dependent_type_location c = .ok c.location := by
  have hfind : c.tokens.find? (qualifyingToken c) = none := by
    rw [List.find?_eq_none]
    intro t ht
    simp [hnone t ht]
  refine ⟨?_, ?_, ?_⟩
  · unfold ClangParser.extract_dependent_type_kind
    rw [if_neg (by simp [hdep])]
    by_cases hm : c.kind = CursorKind.MEMBER_REF_EXPR
    · rw [if_pos hm]
      cases hap : c.astParentKind with
      | none => exact absurd hap (hctx hm)
      | some pk =>
          simp only [hap]
          by_cases hp : pk = CursorKind.CALL_EXPR
          · rw [if_pos hp, hfind]
          · rw [if_neg hp, hfind]
    · rw [if_neg hm]
  · unfold ClangParser.extract_dependent_type_spelling
    rw [if_neg (by simp [hdep])]
    by_cases hm : c.kind = CursorKind.MEMBER_REF_EXPR
    · rw [if_pos hm, hfind]
    · rw [if_neg hm]
  · unfold ClangParser.extract_dependent_type_location
    rw [if_neg (by simp [hdep])]
    by_cases hm : c.kind = CursorKind.MEMBER_REF_EXPR
    · rw [if_pos hm, hfind]
    · rw [if_neg hm]

/-- Witness for the amended C8 at a concrete dependent member-access
cursor with an attached non-call parent and an empty token stream. -/
theorem extract_dependent_no_match_witness :
    ClangParser.extract_dependent_type_kind depCursorParentNoTok =
        .ok depCursorParentNoTok.kind ∧
    ClangParser.extract_dependent_type_spelling depCursorParentNoTok =
        .ok depCursorParentNoTok.spelling ∧
    ClangParser.extract_dependent_type_location depCursorParentNoTok =
        .ok depCursorParentNoTok.location :=
  extract_dependent_no_match_native depCursorParentNoTok (by decide)
    (by decide) (by decide)

/-- Membership in the reference set after a `set.add`. -/
theorem mem_setAdd {refs : List ImmutableSourceLocation}
    {x l : ImmutableSourceLocation} :
    l ∈ setAdd refs x ↔ l ∈ refs ∨ l = x := by
  unfold setAdd
  split
  · rename_i h
    constructor
    · exact fun h' => Or.inl h'
    · rintro (h' | rfl)
      · exact h'
      · exact h
  · simp

/-- A confirmed contribution carries the file of the translation unit
being traversed. -/
theorem farContrib_file {key : FsPath} {tSp tUsr : String} {c : Cursor}
    {x : ImmutableSourceLocation}
    (hc : farContrib key tSp tUsr c = some x) :
    x.file = some key := by
  unfold farContrib at hc
  cases hf : c.location.file with
  | none =>
      simp only [hf] at hc
      exact absurd hc (by simp)
  | some f =>
      simp only [hf] at hc
      by_cases h1 : f = key
      · rw [if_pos h1] at hc
        by_cases h2 : effectiveSpelling c = tSp
        · rw [if_pos h2] at hc
          by_cases h3 : effectiveUsr c = tUsr
          · rw [if_pos h3] at hc
            by_cases h4 :
                tokenConfirm c.location (effectiveSpelling c) c.tokens = true
            · rw [if_pos h4] at hc
              injection hc with hx
              rw [← hx]
              simp [ImmutableSourceLocation.file, hf, h1]
            · rw [if_neg h4] at hc
              exact absurd hc (by simp)
          · rw [if_neg h3] at hc
            exact absurd hc (by simp)
        · rw [if_neg h2] at hc
          exact absurd hc (by simp)
      · rw [if_neg h1] at hc
        exact absurd hc (by simp)

/-- Every element of the set after one visitor step was already present
or carries the traversed unit's file. -/
theorem farStep_mem {key : FsPath} {tSp tUsr : String}
    {refs : List ImmutableSourceLocation} {c : Cursor}
    {l : ImmutableSourceLocation}
    (h : l ∈ farStep key tSp tUsr refs c) :
    l ∈ refs ∨ l.file = some key := by
  unfold farStep at h
  cases hc : farContrib key tSp tUsr c with
  | none => rw [hc] at h; exact Or.inl h
  | some x =>
      rw [hc] at h
      rcases mem_setAdd.mp h with h' | rfl
      · exact Or.inl h'
      · exact Or.inr (farContrib_file hc)

/-- Every element of the set after traversing one unit's node list was
already present or carries that unit's file. -/
theorem foldl_farStep_mem {key : FsPath} {tSp tUsr : String}
    (nodes : List Cursor) (refs : List ImmutableSourceLocation)
    (l : ImmutableSourceLocation)
    (h : l ∈ nodes.foldl (farStep key tSp tUsr) refs) :
    l ∈ refs ∨ l.file = some key := by
  induction nodes generalizing refs with
  | nil => exact Or.inl h
  | cons c cs ih =>
      rcases ih _ h with h' | h'
      · rcases farStep_mem h' with h'' | h''
        · exact Or.inl h''
        · exact Or.inr h''
      · exact Or.inr h'

/-- Every element of the set after folding over a sub-list of the store
was already present or carries the file of some traversed unit. -/
theorem foldl_store_mem (tunits : Store) (tSp tUsr : String)
    (sub : List (FsPath × TranslationUnit))
    (refs : List ImmutableSourceLocation)
    (hrefs : ∀ l ∈ refs, ∃ p ∈ tunits, l.file = some p.1)
    (hsub : ∀ q ∈ sub, q ∈ tunits) :
    ∀ l ∈ sub.foldl
      (fun refs p =>
        (visitedNodes p.2.cursor).foldl (farStep p.1 tSp tUsr) refs)
      refs,
      ∃ p ∈ tunits, l.file = some p.1 := by
  induction sub generalizing refs with
  | nil => exact hrefs
  | cons q sub ih =>
      intro l hl
      refine ih _ ?_ (fun q' hq' => hsub q' (by simp [hq'])) l hl
      intro l' hl'
      rcases foldl_farStep_mem _ _ _ hl' with h' | h'
      · exact hrefs l' h'
      · exact ⟨q, hsub q (by simp), h'⟩

/-- The origin file of the reference-search counterexample. -/
def fileA : FsPath := [ 'a' ]

/-- The key of the second loaded translation unit. -/
def fileB : FsPath := [ 'b' ]

/-- The location of the matching node inside the second unit's own
file. -/
def locB : SourceLocation := ⟨some fileB, 3, 1, 10⟩

/-- The confirming token of the matching node in the second unit. -/
def tokB : Token := ⟨2, "foo", locB, ⟨locB, locB⟩, 0, ⟨locB, locB⟩⟩

/-- A node of the second unit's own file matching the search target. -/
def nodeB : Cursor :=
  .node 101 "foo" 0 locB ⟨locB, locB⟩ "usrfoo" none [] [tokB] none []

/-- The root cursor of the first (origin) translation unit. -/
def rootA : Cursor :=
  .node 300 "" 0 ⟨some fileA, 1, 1, 0⟩ ⟨locB, locB⟩ "" none [] [] none []

/-- The root cursor of the second translation unit. -/
def rootB : Cursor :=
  .node 300 "" 0 ⟨some fileB, 1, 1, 0⟩ ⟨locB, locB⟩ "" none [] [] none
    [nodeB]

/-- A two-unit store: the origin unit and a second unit containing a
matching node in its own file. -/
def storeAB : Store := [(fileA, ⟨rootA⟩), (fileB, ⟨rootB⟩)]

/-- The cursor the location lookup resolves at the query position. -/
def targetCursor : Cursor :=
  .node 8 "foo" 0 ⟨some fileA, 1, 1, 0⟩ ⟨locB, locB⟩ "usrfoo" none [] []
    none []

/-- Counterexample to C1 as stated: querying from `fileA`, the result
set contains a location whose file is `fileB` — a node of another
loaded translation unit's own file contributes, because the visitor's
`filename` closure variable is rebound by the store-iteration loop. -/
theorem find_all_references_includes_other_unit_file :
    (⟨locB⟩ : ImmutableSourceLocation) ∈
      ClangParser.find_all_references storeAB (fun _ _ _ => targetCursor)
        fileA 1 1 ∧
    (⟨locB⟩ : ImmutableSourceLocation).file ≠ some fileA := by
  constructor
  · decide
  · decide

/-- Claim C1 as amended: every location in the result set carries the
file of one of the loaded translation units' keys — the key of the unit
being traversed when the node was confirmed (the loop rebinds the
visitor's `filename` to the traversed unit's key), so nodes reached only
through textual inclusion never contribute, but matching nodes of other
units' own files do. -/
theorem find_all_references_file_matches_traversed_unit
    (tunits : Store) (fromLocation : TranslationUnit → Nat → Nat → Cursor)
    (filename : FsPath) (line column : Nat)
    (l : ImmutableSourceLocation)
    (h : l ∈ ClangParser.find_all_references tunits fromLocation filename
      line column) :
    ∃ p ∈ tunits, l.file = some p.1 := by
  unfold ClangParser.find_all_references at h
  cases hf : tunits.find? (fun p => decide (p.1 = filename)) with
  | none => rw [hf] at h; simp at h
  | some kt =>
      rw [hf] at h
      exact foldl_store_mem tunits
        (effectiveSpelling (fromLocation kt.2 line column))
        (effectiveUsr (fromLocation kt.2 line column)) tunits []
        (fun l' hl' => absurd hl' (List.not_mem_nil l'))
        (fun q hq => hq) l h

/-- Witness for the amended C1 at the concrete two-unit store. -/
theorem find_all_references_file_matches_witness :
    ∃ p ∈ storeAB, (⟨locB⟩ : ImmutableSourceLocation).file = some p.1 :=
  find_all_references_file_matches_traversed_unit storeAB
    (fun _ _ _ => targetCursor) fileA 1 1 ⟨locB⟩ (by decide)

/-- When the walk of `load_aux` reports failure, the store it leaves
behind is exactly the one produced by loading some prefix of the walked
files. -/
theorem load_aux_partial (root : FsPath)
    (files : List (FsPath × Except String TranslationUnit)) :
    ∀ acc : Store, (load_aux root acc files).2 = false →
      ∃ n, (load_aux root acc files).1 =
        (load_aux root acc (files.take n)).1 := by
  induction files with
  | nil =>
      intro acc h
      simp [load_aux] at h
  | cons f rest ih =>
      intro acc h
      obtain ⟨p, content⟩ := f
      cases h1 : underDir root p with
      | false =>
          simp only [load_aux, h1, Bool.false_eq_true, if_false] at h ⊢
          obtain ⟨n, hn⟩ := ih acc h
          refine ⟨n + 1, ?_⟩
          simp only [List.take_succ_cons, load_aux, h1, Bool.false_eq_true,
            if_false]
          exact hn
      | true =>
          by_cases h2 : splitextExt (basename p) = [ '.', 'a', 's', 't' ]
          · cases content with
            | ok tu =>
                simp only [load_aux, h1, if_true, if_pos h2] at h ⊢
                obtain ⟨n, hn⟩ := ih _ h
                refine ⟨n + 1, ?_⟩
                simp only [List.take_succ_cons, load_aux, h1, if_true,
                  if_pos h2]
                exact hn
            | error e =>
                refine ⟨0, ?_⟩
                simp [load_aux, h1, h2]
          · simp only [load_aux, h1, if_true, if_neg h2] at h ⊢
            obtain ⟨n, hn⟩ := ih acc h
            refine ⟨n + 1, ?_⟩
            simp only [List.take_succ_cons, load_aux, h1, if_true,
              if_neg h2]
            exact hn

/-- Claim C10: reloading discards every pre-existing entry before any
file is read — the result is independent of the prior store — and when
the operation reports failure the store holds exactly the entries loaded
from some prefix of the walked files: the prior entries are never
preserved or restored. -/
theorem load_from_disk_discards_prior_store (root : FsPath)
    (tunits tunits' : Store)
    (files : List (FsPath × Except String TranslationUnit)) :
    ClangParser.load_from_disk root tunits files =
      ClangParser.load_from_disk root tunits' files ∧
    ((ClangParser.load_from_disk root tunits files).2 = false →
      ∃ n, (ClangParser.load_from_disk root tunits files).1 =
        (ClangParser.load_from_disk root tunits (files.take n)).1) := by
  refine ⟨rfl, ?_⟩
  intro hfail
  exact load_aux_partial root files [] hfail

/-- A one-file walk whose single artifact fails to read. -/
def badFiles : List (FsPath × Except String TranslationUnit) :=
  [( [ 'r', '/', 'x', '.', 'a', 's', 't' ], Except.error ("boom"))]

/-- Witness for C10 at a concrete failing walk over a non-empty prior
store. -/
theorem load_from_disk_discards_witness :
    ∃ n, (ClangParser.load_from_disk [ 'r' ] [( [ 's' ], sampleTU)]
        badFiles).1 =
      (ClangParser.load_from_disk [ 'r' ] [( [ 's' ], sampleTU)]
        (badFiles.take n)).1 :=
  (load_from_disk_discards_prior_store [ 'r' ] [( [ 's' ], sampleTU)] []
    badFiles).2 (by decide)

/-- A take-while scan over a concatenation stops at a failing element
placed between the parts. -/
theorem takeWhile_append_stop {α : Type} (p : α → Bool) (a : α)
    (ha : p a = false) (xs ys : List α) :
    ((xs ++ a :: ys).takeWhile p) = xs.takeWhile p := by
  induction xs with
  | nil => simp [List.takeWhile_cons, ha]
  | cons x xs ih =>
      by_cases hx : p x = true
      · simp [List.takeWhile_cons, hx, ih]
      · simp [List.takeWhile_cons, Bool.eq_false_iff.mpr hx]

/-- A take-while scan passes over a fully satisfying first part. -/
theorem takeWhile_all_append {α : Type} (p : α → Bool) (xs ys : List α)
    (hall : ∀ x ∈ xs, p x = true) :
    ((xs ++ ys).takeWhile p) = xs ++ ys.takeWhile p := by
  induction xs with
  | nil => simp
  | cons x xs ih =>
      simp only [List.cons_append, List.takeWhile_cons,
        hall x (by simp), if_true]
      rw [ih (fun x hx => hall x (by simp [hx]))]

/-- A drop-while scan consumes a fully satisfying first part. -/
theorem dropWhile_all_append {α : Type} (p : α → Bool) (xs ys : List α)
    (hall : ∀ x ∈ xs, p x = true) :
    ((xs ++ ys).dropWhile p) = ys.dropWhile p := by
  induction xs with
  | nil => simp
  | cons x xs ih =>
      simp only [List.cons_append, List.dropWhile_cons,
        hall x (by simp), if_true]
      exact ih (fun x hx => hall x (by simp [hx]))

/-- The basename of a path ignores everything up to the last
separator. -/
theorem basename_append_slash (x z : FsPath) :
    basename (x ++ '/' :: z) = basename z := by
  unfold basename
  rw [List.reverse_append, List.reverse_cons, List.append_assoc,
    List.singleton_append,
    takeWhile_append_stop (fun c => decide (c ≠ '/')) '/' (by decide)]

/-- Appending the `.ast` suffix extends the basename by that suffix. -/
theorem basename_append_ast (r : FsPath) :
    basename (r ++ [ '.', 'a', 's', 't' ]) =
      basename r ++ [ '.', 'a', 's', 't' ] := by
  unfold basename
  rw [List.reverse_append]
  rw [show ([ '.', 'a', 's', 't' ] : FsPath).reverse =
    [ 't', 's', 'a', '.' ] from rfl]
  rw [takeWhile_all_append (fun c => decide (c ≠ '/'))
    [ 't', 's', 'a', '.' ] r.reverse (by decide)]
  rw [List.reverse_append]
  rfl

/-- On a basename of the shape `w ++ ".ast"` whose stem `w` holds a
character other than a dot, `splitext` reports the `.ast` extension. -/
theorem splitextExt_append_ast (w : FsPath)
    (hw : w.any (fun c => decide (c ≠ '.')) = true) :
    splitextExt (w ++ [ '.', 'a', 's', 't' ]) = [ '.', 'a', 's', 't' ] := by
  have h1 : (w ++ ([ '.', 'a', 's', 't' ] : FsPath)).reverse =
      [ 't', 's', 'a' ] ++ '.' :: w.reverse := by
    rw [List.reverse_append]
    rfl
  have h2 : (([ 't', 's', 'a' ] ++ '.' :: w.reverse) : FsPath).dropWhile
      (fun c => decide (c ≠ '.')) = '.' :: w.reverse := by
    rw [dropWhile_all_append (fun c => decide (c ≠ '.'))
      [ 't', 's', 'a' ] ('.' :: w.reverse) (by decide)]
    simp [List.dropWhile_cons]
  have h3 : (([ 't', 's', 'a' ] ++ '.' :: w.reverse) : FsPath).takeWhile
      (fun c => decide (c ≠ '.')) = [ 't', 's', 'a' ] := by
    rw [takeWhile_append_stop (fun c => decide (c ≠ '.')) '.' (by decide)]
    rfl
  unfold splitextExt
  rw [h1, h2, h3]
  rw [if_neg (by simp)]
  rw [if_pos (by simpa [List.any_reverse] using hw)]
  rfl

/-- A leading separator does not change the basename. -/
theorem basename_cons_slash (r : FsPath) :
    basename ('/' :: r) = basename r := by
  simpa using basename_append_slash [] r

/-- Shape of the artifact path `save_to_disk` writes for a key, when the
root has no trailing separator and the key's remainder after the leading
character is not absolute. -/
theorem save_path_eq (root k : FsPath) (hroot1 : root ≠ [])
    (hroot2 : root.getLast? ≠ some '/')
    (hk2 : (k.drop 1).head? ≠ some '/') :
    save_path root k =
      root ++ '/' :: (k.drop 1 ++ [ '.', 'a', 's', 't' ]) := by
  unfold save_path osJoin
  rw [if_neg hk2, if_neg (not_or.mpr ⟨hroot1, hroot2⟩)]
  simp

/-- The artifact path lies inside the walked tree of the root
directory. -/
theorem underDir_save_path (root k : FsPath) (hroot1 : root ≠ [])
    (hroot2 : root.getLast? ≠ some '/')
    (hk2 : (k.drop 1).head? ≠ some '/') :
    underDir root (save_path root k) = true := by
  rw [save_path_eq root k hroot1 hroot2 hk2]
  simp only [underDir, decide_eq_true_eq]
  rw [show root ++ '/' :: (k.drop 1 ++ [ '.', 'a', 's', 't' ]) =
    (root ++ [ '/' ]) ++ (k.drop 1 ++ [ '.', 'a', 's', 't' ]) from by simp]
  rw [show root.length + 1 = (root ++ ([ '/' ] : FsPath)).length from by
    simp]
  exact List.take_left ..

/-- The artifact path carries the `.ast` extension on its basename,
provided the key's basename holds a character other than a dot. -/
theorem splitextExt_basename_save_path (root k : FsPath)
    (hroot1 : root ≠ []) (hroot2 : root.getLast? ≠ some '/')
    (hk1 : k.head? = some '/') (hk2 : (k.drop 1).head? ≠ some '/')
    (hk3 : (basename k).any (fun c => decide (c ≠ '.')) = true) :
    splitextExt (basename (save_path root k)) = [ '.', 'a', 's', 't' ] := by
  obtain ⟨r, rfl⟩ : ∃ r, k = '/' :: r := by
    cases k with
    | nil => simp at hk1
    | cons c r =>
        simp only [List.head?_cons, Option.some.injEq] at hk1
        exact ⟨r, by rw [hk1]⟩
  rw [save_path_eq root ('/' :: r) hroot1 hroot2 hk2]
  rw [basename_append_slash root (('/' :: r).drop 1 ++ [ '.', 'a', 's', 't' ])]
  rw [show ('/' :: r).drop 1 = r from rfl]
  rw [basename_append_ast r]
  rw [basename_cons_slash r] at hk3
  exact splitextExt_append_ast (basename r) hk3

/-- Stripping the root prefix and the `.ast` suffix from the artifact
path recovers the original key. -/
theorem stripKey_save_path (root k : FsPath) (hroot1 : root ≠ [])
    (hroot2 : root.getLast? ≠ some '/')
    (hk1 : k.head? = some '/') (hk2 : (k.drop 1).head? ≠ some '/') :
    stripKey root (save_path root k) = k := by
  obtain ⟨r, rfl⟩ : ∃ r, k = '/' :: r := by
    cases k with
    | nil => simp at hk1
    | cons c r =>
        simp only [List.head?_cons, Option.some.injEq] at hk1
        exact ⟨r, by rw [hk1]⟩
  rw [save_path_eq root ('/' :: r) hroot1 hroot2 hk2]
  rw [show ('/' :: r).drop 1 = r from rfl]
  unfold stripKey
  rw [List.drop_left root ('/' :: (r ++ [ '.', 'a', 's', 't' ]))]
  rw [show ('/' :: (r ++ [ '.', 'a', 's', 't' ])) =
    ('/' :: r) ++ [ '.', 'a', 's', 't' ] from by simp]
  rw [show (('/' :: r) ++ ([ '.', 'a', 's', 't' ] : FsPath)).length - 4 =
    ('/' :: r : FsPath).length from by simp]
  exact List.take_left ..

/-- Keys after a dict assignment: the old keys plus the assigned one. -/
theorem keysOf_dictInsert (d : Store) (k : FsPath) (v : TranslationUnit) :
    ∀ x, x ∈ keysOf (dictInsert d k v) ↔ x ∈ keysOf d ∨ x = k := by
  induction d with
  | nil => intro x; simp [dictInsert, keysOf]
  | cons p rest ih =>
      intro x
      by_cases h : p.1 = k
      · subst h
        have hins : dictInsert (p :: rest) p.1 v = (p.1, v) :: rest := by
          simp [dictInsert]
        rw [hins]
        simp only [keysOf, List.map_cons, List.mem_cons]
        tauto
      · have ihx := ih x
        simp only [keysOf, List.map_cons, List.mem_cons] at ihx ⊢
        simp only [dictInsert, if_neg h, List.map_cons, List.mem_cons]
        rw [ihx]
        tauto

/-- Keys after a walk that only meets readable `.ast` artifacts under
the root: the accumulator's keys plus a stripped key per artifact. -/
theorem keys_load_aux (root : FsPath)
    (files : List (FsPath × Except String TranslationUnit)) :
    ∀ acc : Store,
      (∀ f ∈ files, underDir root f.1 = true ∧
        splitextExt (basename f.1) = [ '.', 'a', 's', 't' ] ∧
        ∃ tu, f.2 = Except.ok tu) →
      ∀ x, x ∈ keysOf (load_aux root acc files).1 ↔
        x ∈ keysOf acc ∨ ∃ f ∈ files, x = stripKey root f.1 := by
  induction files with
  | nil => intro acc _ x; simp [load_aux]
  | cons f rest ih =>
      intro acc hall x
      obtain ⟨h1, h2, tu, h3⟩ := hall f (by simp)
      obtain ⟨p, content⟩ := f
      simp only at h3
      subst h3
      simp only [load_aux, h1, if_true, if_pos h2]
      rw [ih (dictInsert acc (stripKey root p) tu)
        (fun f hf => hall f (by simp [hf])) x]
      rw [keysOf_dictInsert acc (stripKey root p) tu x]
      simp only [List.mem_cons]
      constructor
      · rintro ((hx | rfl) | ⟨g, hg, rfl⟩)
        · exact Or.inl hx
        · exact Or.inr ⟨(p, Except.ok tu), Or.inl rfl, rfl⟩
        · exact Or.inr ⟨g, Or.inr hg, rfl⟩
      · rintro (hx | ⟨g, (rfl | hg), rfl⟩)
        · exact Or.inl (Or.inl hx)
        · exact Or.inl (Or.inr rfl)
        · exact Or.inr ⟨g, hg, rfl⟩

/-- Claim C4 as amended: for a root directory without a trailing
separator and a store whose keys are absolute paths (leading separator,
no double leading separator, basename holding a non-dot character),
saving everything and reloading into a fresh store reproduces exactly
the original key set, each key recovered by stripping the root prefix
and the `.ast` suffix. -/
theorem save_then_fresh_load_same_keys (root : FsPath) (tunits : Store)
    (hroot1 : root ≠ []) (hroot2 : root.getLast? ≠ some '/')
    (hkeys : ∀ k ∈ keysOf tunits, k.head? = some '/' ∧
      (k.drop 1).head? ≠ some '/' ∧
      (basename k).any (fun c => decide (c ≠ '.')) = true) :
    ∀ x, x ∈ keysOf (ClangParser.load_from_disk root []
        (asOkFiles (ClangParser.save_to_disk root tunits))).1 ↔
      x ∈ keysOf tunits := by
  intro x
  have hall : ∀ f ∈ asOkFiles (ClangParser.save_to_disk root tunits),
      underDir root f.1 = true ∧
      splitextExt (basename f.1) = [ '.', 'a', 's', 't' ] ∧
      ∃ tu, f.2 = Except.ok tu := by
    intro f hf
    simp only [asOkFiles, ClangParser.save_to_disk, List.map_map,
      List.mem_map] at hf
    obtain ⟨q, hq, rfl⟩ := hf
    have hk := hkeys q.1 (List.mem_map_of_mem (fun p => p.1) hq)
    exact ⟨underDir_save_path root q.1 hroot1 hroot2 hk.2.1,
      splitextExt_basename_save_path root q.1 hroot1 hroot2 hk.1 hk.2.1
        hk.2.2, q.2, rfl⟩
  unfold ClangParser.load_from_disk
  rw [keys_load_aux root (asOkFiles (ClangParser.save_to_disk root tunits))
    [] hall x]
  simp only [keysOf, List.map_nil, List.not_mem_nil, false_or]
  constructor
  · rintro ⟨f, hf, rfl⟩
    simp only [asOkFiles, ClangParser.save_to_disk, List.map_map,
      List.mem_map] at hf
    obtain ⟨q, hq, rfl⟩ := hf
    have hk := hkeys q.1 (List.mem_map_of_mem (fun p => p.1) hq)
    show stripKey root (save_path root q.1) ∈ List.map (fun p => p.1) tunits
    rw [stripKey_save_path root q.1 hroot1 hroot2 hk.1 hk.2.1]
    exact List.mem_map_of_mem (fun p => p.1) hq
  · intro hx
    simp only [List.mem_map] at hx
    obtain ⟨q, hq, rfl⟩ := hx
    have hk := hkeys q.1 (List.mem_map_of_mem (fun p => p.1) hq)
    refine ⟨(save_path root q.1, Except.ok q.2), ?_, ?_⟩
    · simp only [asOkFiles, ClangParser.save_to_disk, List.map_map,
        List.mem_map]
      exact ⟨q, hq, rfl⟩
    · exact (stripKey_save_path root q.1 hroot1 hroot2 hk.1 hk.2.1).symm

/-- A store keyed by a relative file name. -/
def relStore : Store := [( [ 'a' ], sampleTU)]

/-- Counterexample to C4 as stated over every store and directory: with
the relative key a and root directory /d the artifact is written to
/d/.ast, whose basename has an empty stem, so the reload walk skips it
and the key set is not reproduced. -/
theorem save_load_loses_relative_key :
    ( [ 'a' ] : FsPath) ∈ keysOf relStore ∧
    ( [ 'a' ] : FsPath) ∉ keysOf (ClangParser.load_from_disk [ '/', 'd' ]
      [] (asOkFiles (ClangParser.save_to_disk [ '/', 'd' ] relStore))).1 := by
  constructor
  · decide
  · decide

/-- A store keyed by an absolute file name. -/
def absStore : Store := [( [ '/', 'a' ], sampleTU)]

/-- Witness for the amended C4 at a concrete absolute-keyed store. -/
theorem save_load_roundtrip_witness :
    ( [ '/', 'a' ] : FsPath) ∈ keysOf (ClangParser.load_from_disk
        [ '/', 'd' ] []
        (asOkFiles (ClangParser.save_to_disk [ '/', 'd' ] absStore))).1 ↔
      ( [ '/', 'a' ] : FsPath) ∈ keysOf absStore :=
  save_then_fresh_load_same_keys [ '/', 'd' ] absStore (by decide)
    (by decide) (by decide) [ '/', 'a' ]
